import Mathlib

/-!
Shallow embedding of `ocr.py` from the jaccount-captcha-solver repository.

The module defines two captcha recognizers:

* `LegacyRecognizer` — binarizes the input image, splits it into per-character
  segments with external helpers (`h_split`, `v_split`, `normalize` from
  `utils`, which is not part of this module) and classifies each segment with
  an SVM model loaded through onnxruntime;
* `NNRecognizer` — binarizes the input image and feeds it whole to a ResNet
  model, decoding the output tensors by argmax.

External collaborators (PIL image decoding, the `utils` split/normalize
helpers and the onnxruntime sessions) are not part of `ocr.py`; they are
modelled as explicit function parameters / recognizer fields, so every theorem
quantifies over their behaviour.  A grayscale "L"-mode image is a flat list of
pixel intensities in `[0, 255]`; model output scores are modelled as integers,
since `np.argmax` observes only their ordering.  The recognizer state is
threaded explicitly through `recognize` (the Python methods read `self` and
never assign to it).
-/

namespace Ocr

/-- Raw encoded image bytes (the `img: bytes` argument in the Python source). -/
abbrev Bytes := List Nat

/-- A grayscale ("L" mode) image: a flat list of pixel intensities. -/
abbrev ImageL := List Nat

/-- Decode failure: `PIL.Image.open` raises when the bytes are not a valid
image (the spec's `DecodeError`). -/
inductive DecodeError where
  | decodeFailure
deriving DecidableEq

/-- The binarization lookup table `[0] * 156 + [1] * 100`, built identically in
`LegacyRecognizer.__init__` (ocr.py line 27) and `NNRecognizer.__init__`
(ocr.py line 64). -/
def captchaTable : List Nat := List.replicate 156 0 ++ List.replicate 100 1

/-- Pixel-wise lookup `img.point(table, "1")`: apply the 256-entry lookup table to every pixel of
a grayscale image (per Pillow's `Point.c`, each stored pixel becomes
`table[p]`; an out-of-range entry defaults to 0, which cannot occur for
"L"-mode pixels). -/
def pointTable (table : List Nat) (img : ImageL) : List Nat :=
  img.map fun p => table.getD p 0

/-- Pillow's conversion of a binary ("1" mode) image back to "L" mode
(`bit2l` in Pillow's `Convert.c`): every nonzero pixel becomes 255.  This is
the `convert("L")` step a binary image goes through before the lookup table
can be applied to it again. -/
def convert1L (img : List Nat) : List Nat :=
  img.map fun p => if p = 0 then 0 else 255

/-- State of a `LegacyRecognizer`: the onnxruntime SVM session `_clr`
(modelled as a function from a flattened segment feature vector to
`str(predict[0][0])`, the string form of the predicted label) and the
binarization table `_table`. -/
structure LegacyRecognizer where
  clr : List Nat → String
  table : List Nat

/-- Constructor `LegacyRecognizer.__init__` (ocr.py lines 25-27): store the model session
and build the table `[0] * 156 + [1] * 100`. -/
def LegacyRecognizer.init (clr : List Nat → String) : LegacyRecognizer :=
  { clr := clr, table := List.replicate 156 0 ++ List.replicate 100 1 }

/-- Method `LegacyRecognizer.recognize` (ocr.py lines 29-44), with the external
collaborators passed explicitly:

* `decode` models `Image.open(BytesIO(img)).convert("L")`; `none` means PIL
  raised a decode error, which propagates out of `recognize`;
* `hsplit` models `h_split`, the horizontal split of the binarized image into
  per-character sub-images, in left-to-right order;
* `vnorm` models `normalize(v_split(segment)).convert("L").getdata()`
  composed with the `np.float32` conversion: one segment becomes one flat
  feature vector.

The recognizer state is returned unchanged, mirroring that the Python method
never assigns to `self`. -/
def LegacyRecognizer.recognize (hsplit : List Nat → List (List Nat))
    (vnorm : List Nat → List Nat) (decode : Bytes → Option ImageL)
    (r : LegacyRecognizer) (img : Bytes) :
    Except DecodeError String × LegacyRecognizer :=
  match decode img with
  | none => (Except.error DecodeError.decodeFailure, r)
  | some gray =>
    let imgRec := pointTable r.table gray
    let segments := (hsplit imgRec).map vnorm
    let predicts := segments.map r.clr
    (Except.ok (String.join predicts), r)

/-- State of an `NNRecognizer`: the binarization table `_table` and the
onnxruntime session `_sess`, modelled as a function from the binarized image
to the list of output tensors (each a score vector over the label axis; the
two `expand_dims` reshapes are part of the session's input convention). -/
structure NNRecognizer where
  table : List Nat
  sess : List Nat → List (List Int)

/-- Constructor `NNRecognizer.__init__` (ocr.py lines 63-65): build the table
`[0] * 156 + [1] * 100` and store the model session. -/
def NNRecognizer.init (sess : List Nat → List (List Int)) : NNRecognizer :=
  { table := List.replicate 156 0 ++ List.replicate 100 1, sess := sess }

/-- Inner loop of `int(np.argmax(tensor, 1))`: scan the scores left to right
keeping the first index of the maximum (numpy returns the first occurrence on
ties). -/
def argmaxAux : List Int → Nat → Nat → Int → Nat
  | [], _, best, _ => best
  | x :: xs, i, best, bestVal =>
    if bestVal < x then argmaxAux xs (i + 1) i x
    else argmaxAux xs (i + 1) best bestVal

/-- Value of `int(np.argmax(tensor, 1))`: index of the first maximum of the score
vector. -/
def argmax : List Int → Nat
  | [] => 0
  | x :: xs => argmaxAux xs 1 0 x

/-- Loop of `NNRecognizer._tensor_to_captcha` (ocr.py lines 69-74) with the
accumulator `captcha` explicit: for each tensor take its argmax `asc`; when
`asc < 26` append `chr(ord("a") + asc)`, otherwise append nothing. -/
def tensorLoop (captcha : String) : List (List Int) → String
  | [] => captcha
  | t :: ts =>
    let asc := argmax t
    tensorLoop (if asc < 26 then captcha.push (Char.ofNat (97 + asc)) else captcha) ts

/-- Decoder `NNRecognizer._tensor_to_captcha` (ocr.py lines 67-74). -/
def NNRecognizer.tensorToCaptcha (tensors : List (List Int)) : String :=
  tensorLoop "" tensors

/-- Method `NNRecognizer.recognize` (ocr.py lines 76-92): decode and grayscale the
bytes (`decode`), binarize with the table, run the session once on the result
and decode the output tensors.  State is returned unchanged. -/
def NNRecognizer.recognize (decode : Bytes → Option ImageL)
    (r : NNRecognizer) (img : Bytes) :
    Except DecodeError String × NNRecognizer :=
  match decode img with
  | none => (Except.error DecodeError.decodeFailure, r)
  | some gray =>
    let imgNp := pointTable r.table gray
    let outTensor := r.sess imgNp
    (Except.ok (NNRecognizer.tensorToCaptcha outTensor), r)

/-- Modelled from the spec: the character decoded from one output tensor —
the lowercase letter `'a' + argmax` when the argmax is in `[0, 26)`, no
character otherwise. -/
def slotChar (t : List Int) : Option Char :=
  if argmax t < 26 then some (Char.ofNat (97 + argmax t)) else none

/-! ### Helper lemmas -/

theorem captchaTable_getD (p : Nat) (hp : p < 256) :
    captchaTable.getD p 0 = if p < 156 then 0 else 1 := by
  unfold captchaTable
  by_cases h : p < 156
  · rw [if_pos h, List.getD_eq_getElem?_getD,
      List.getElem?_append_left (by rw [List.length_replicate]; exact h),
      List.getElem?_replicate_of_lt h]
    rfl
  · rw [if_neg h, List.getD_eq_getElem?_getD,
      List.getElem?_append_right (by rw [List.length_replicate]; omega),
      List.length_replicate, List.getElem?_replicate_of_lt (by omega : p - 156 < 100)]
    rfl

theorem captchaTable_getD_zero_or_one (p : Nat) :
    captchaTable.getD p 0 = 0 ∨ captchaTable.getD p 0 = 1 := by
  by_cases hp : p < 256
  · rw [captchaTable_getD p hp]
    by_cases h : p < 156
    · left
      rw [if_pos h]
    · right
      rw [if_neg h]
  · left
    rw [List.getD_eq_getElem?_getD, List.getElem?_eq_none]
    · rfl
    · rw [captchaTable, List.length_append, List.length_replicate, List.length_replicate]
      omega

theorem captchaTable_getD_zero : captchaTable.getD 0 0 = 0 := by
  rw [captchaTable_getD 0 (by omega)]
  rfl

theorem captchaTable_getD_255 : captchaTable.getD 255 0 = 1 := by
  rw [captchaTable_getD 255 (by omega)]
  rfl

theorem legacyRecognize_snd (hsplit : List Nat → List (List Nat))
    (vnorm : List Nat → List Nat) (decode : Bytes → Option ImageL)
    (r : LegacyRecognizer) (img : Bytes) :
    (LegacyRecognizer.recognize hsplit vnorm decode r img).2 = r := by
  unfold LegacyRecognizer.recognize
  cases decode img <;> rfl

theorem nnRecognize_snd (decode : Bytes → Option ImageL)
    (r : NNRecognizer) (img : Bytes) :
    (NNRecognizer.recognize decode r img).2 = r := by
  unfold NNRecognizer.recognize
  cases decode img <;> rfl

theorem tensorLoop_data (c : String) (ts : List (List Int)) :
    (tensorLoop c ts).data = c.data ++ ts.filterMap slotChar := by
  induction ts generalizing c with
  | nil => simp [tensorLoop]
  | cons t ts ih =>
    show (tensorLoop (if argmax t < 26 then c.push (Char.ofNat (97 + argmax t)) else c) ts).data = _
    by_cases h : argmax t < 26
    · rw [if_pos h, ih, List.filterMap_cons_some (by rw [slotChar, if_pos h]),
        String.data_push, List.append_assoc, List.singleton_append]
    · rw [if_neg h, ih, List.filterMap_cons_none (by rw [slotChar, if_neg h])]

theorem tensorToCaptcha_eq (ts : List (List Int)) :
    NNRecognizer.tensorToCaptcha ts = String.mk (ts.filterMap slotChar) := by
  apply String.ext
  rw [NNRecognizer.tensorToCaptcha, tensorLoop_data]
  rfl

theorem length_filterMap_lt_of_none {α β : Type} {f : α → Option β} :
    ∀ {l : List α}, (∃ a ∈ l, f a = none) → (l.filterMap f).length < l.length
  | a :: l, h => by
    rcases h with ⟨b, hb, hnone⟩
    rcases List.mem_cons.1 hb with rfl | hb
    · rw [List.filterMap_cons_none hnone, List.length_cons]
      exact Nat.lt_succ_of_le (List.length_filterMap_le f l)
    · cases hfa : f a with
      | none =>
        rw [List.filterMap_cons_none hfa, List.length_cons]
        exact Nat.lt_succ_of_le (List.length_filterMap_le f l)
      | some c =>
        rw [List.filterMap_cons_some hfa, List.length_cons, List.length_cons]
        exact Nat.succ_lt_succ (length_filterMap_lt_of_none ⟨b, hb, hnone⟩)

theorem foldl_append_length (a : String) (l : List String) :
    (l.foldl (fun r s => r ++ s) a).length = a.length + (l.map String.length).sum := by
  induction l generalizing a with
  | nil => simp
  | cons s l ih =>
    rw [List.foldl_cons, ih, String.length_append, List.map_cons, List.sum_cons]
    omega

theorem join_length (l : List String) :
    (String.join l).length = (l.map String.length).sum := by
  rw [String.join, foldl_append_length, String.length_empty, Nat.zero_add]

theorem foldl_append_data (a : String) (l : List String) :
    (l.foldl (fun r s => r ++ s) a).data = a.data ++ (l.map String.data).flatten := by
  induction l generalizing a with
  | nil => simp
  | cons s l ih =>
    rw [List.foldl_cons, ih, String.data_append, List.map_cons, List.flatten_cons,
      List.append_assoc]

theorem join_data (l : List String) :
    (String.join l).data = (l.map String.data).flatten := by
  rw [String.join, foldl_append_data]
  rfl

/-! ### Claim theorems -/

/-- Claim C2: the binarization table used by both recognizers has exactly 256
entries, entry `p` is 0 for `p ≤ 155` and 1 for `156 ≤ p ≤ 255`; an all-zero
image binarizes to all 0 and an all-255 image to all 1. -/
theorem c2_binarization_table (clr : List Nat → String)
    (sess : List Nat → List (List Int)) :
    (LegacyRecognizer.init clr).table = captchaTable ∧
    (NNRecognizer.init sess).table = captchaTable ∧
    captchaTable.length = 256 ∧
    (∀ p : Fin 256, captchaTable.getD p 0 = if (p : Nat) ≤ 155 then 0 else 1) ∧
    (∀ n : Nat, pointTable captchaTable (List.replicate n 0) = List.replicate n 0) ∧
    (∀ n : Nat, pointTable captchaTable (List.replicate n 255) = List.replicate n 1) := by
  refine ⟨rfl, rfl, ?_, ?_, ?_, ?_⟩
  · rw [captchaTable, List.length_append, List.length_replicate, List.length_replicate]
  · intro p
    rw [captchaTable_getD p p.isLt]
    by_cases h : (p : Nat) < 156
    · rw [if_pos h, if_pos (by omega)]
    · rw [if_neg h, if_neg (by omega)]
  · intro n
    simp only [pointTable, List.map_replicate]
    rw [captchaTable_getD_zero]
  · intro n
    simp only [pointTable, List.map_replicate]
    rw [captchaTable_getD_255]

/-- Claim C10: the binarization table is monotone on `[0, 255]`, and is
exactly the threshold comparison `p ≥ 156 ? 1 : 0`. -/
theorem c10_table_monotone :
    (∀ p q : Fin 256, p ≤ q → captchaTable.getD p 0 ≤ captchaTable.getD q 0) ∧
    (∀ p : Fin 256, captchaTable.getD p 0 = if 156 ≤ (p : Nat) then 1 else 0) := by
  constructor
  · intro p q hpq
    rw [captchaTable_getD p p.isLt, captchaTable_getD q q.isLt]
    by_cases hq : (q : Nat) < 156
    · rw [if_pos (show (p : Nat) < 156 by exact Nat.lt_of_le_of_lt hpq hq), if_pos hq]
    · rw [if_neg hq]
      by_cases hp : (p : Nat) < 156 <;> simp [hp]
  · intro p
    rw [captchaTable_getD p p.isLt]
    by_cases h : (p : Nat) < 156
    · rw [if_pos h, if_neg (by omega)]
    · rw [if_neg h, if_pos (by omega)]

/-- Witness for C10 at concrete intensities 0 and 200. -/
theorem c10_table_monotone_witness :
    captchaTable.getD 0 0 ≤ captchaTable.getD 200 0 ∧
    captchaTable.getD 200 0 = 1 := by
  constructor
  · exact c10_table_monotone.1 ⟨0, by omega⟩ ⟨200, by omega⟩ (by decide)
  · exact c10_table_monotone.2 ⟨200, by omega⟩

/-- Claim C5: binarization is idempotent.  A binarized image is what
`point(table, "1")` produced; running it through the binarization step again
(Pillow converts the "1"-mode image back to "L", sending nonzero pixels to
255, before the table is applied — the `convert("L")` of `recognize`) yields
the same binary image. -/
theorem c5_binarization_idempotent (img : ImageL) :
    pointTable captchaTable (convert1L (pointTable captchaTable img)) =
      pointTable captchaTable img := by
  induction img with
  | nil => rfl
  | cons p ps ih =>
    simp only [pointTable, convert1L, List.map_cons, List.cons.injEq] at ih ⊢
    refine ⟨?_, ih⟩
    rcases captchaTable_getD_zero_or_one p with h | h <;> rw [h]
    · rw [if_pos rfl, captchaTable_getD_zero]
    · rw [if_neg (by omega), captchaTable_getD_255]

/-- Claim C1: `_tensor_to_captcha` decodes each output tensor independently —
when the argmax index is in `[0, 26)` it emits the letter `'a' + index`, and
when the index is 26 or above it emits no character (`slotChar` states exactly
this per-slot rule).  In particular a tensor whose maximum sits at index 25
decodes to `"z"`, and one whose maximum sits at index 26 decodes to the empty
string. -/
theorem c1_tensor_decode :
    (∀ ts : List (List Int),
        NNRecognizer.tensorToCaptcha ts = String.mk (ts.filterMap slotChar)) ∧
    NNRecognizer.tensorToCaptcha [List.replicate 25 0 ++ [1]] = "z" ∧
    NNRecognizer.tensorToCaptcha [List.replicate 26 0 ++ [1]] = "" := by
  refine ⟨tensorToCaptcha_eq, ?_, ?_⟩ <;> decide

/-- Claim C4: the decoded string has at most one character per output tensor,
and strictly fewer characters than tensors as soon as one tensor's argmax is
26 or above. -/
theorem c4_output_length (ts : List (List Int)) :
    (NNRecognizer.tensorToCaptcha ts).length ≤ ts.length ∧
    ((∃ t ∈ ts, 26 ≤ argmax t) →
      (NNRecognizer.tensorToCaptcha ts).length < ts.length) := by
  rw [tensorToCaptcha_eq, String.length_mk]
  refine ⟨List.length_filterMap_le slotChar ts, ?_⟩
  rintro ⟨t, ht, hge⟩
  exact length_filterMap_lt_of_none ⟨t, ht, by rw [slotChar, if_neg (by omega)]⟩

/-- Witness for C4: a single 27-entry tensor whose maximum sits at index 26
decodes to fewer than one character. -/
theorem c4_output_length_witness :
    (NNRecognizer.tensorToCaptcha [List.replicate 26 0 ++ [1]]).length < 1 :=
  (c4_output_length [List.replicate 26 0 ++ [1]]).2
    ⟨List.replicate 26 0 ++ [1], by decide, by decide⟩

/-- Claim C3: on any successfully decoded image, `LegacyRecognizer.recognize`
returns a string with exactly one character per segment produced by the
horizontal split of the binarized image, the per-segment labels concatenated
in segment order (the hypothesis `hone` records that the SVM session predicts
a single-character label for every feature vector, as the spec's label model
requires). -/
theorem c3_legacy_length (hsplit : List Nat → List (List Nat))
    (vnorm : List Nat → List Nat) (decode : Bytes → Option ImageL)
    (r : LegacyRecognizer) (img : Bytes) (gray : ImageL)
    (hdec : decode img = some gray)
    (hone : ∀ v : List Nat, (r.clr v).length = 1) :
    (LegacyRecognizer.recognize hsplit vnorm decode r img).1 =
      Except.ok (String.join (((hsplit (pointTable r.table gray)).map vnorm).map r.clr)) ∧
    (String.join (((hsplit (pointTable r.table gray)).map vnorm).map r.clr)).length =
      (hsplit (pointTable r.table gray)).length := by
  constructor
  · rw [LegacyRecognizer.recognize, hdec]
  · rw [join_length, List.map_map, List.map_map]
    simp only [Function.comp_def]
    have h1 : (hsplit (pointTable r.table gray)).map (fun s => (r.clr (vnorm s)).length) =
        (hsplit (pointTable r.table gray)).map (fun _ => 1) :=
      List.map_congr_left fun s _ => hone (vnorm s)
    rw [h1, List.map_const', List.sum_replicate, smul_eq_mul, Nat.mul_one]

/-- Witness for C3: two segments, a constant one-letter classifier. -/
theorem c3_legacy_length_witness :
    (LegacyRecognizer.recognize (fun i => [i, i]) id (fun _ => some [0])
        (LegacyRecognizer.init fun _ => "a") []).1 =
      Except.ok (String.join [("a" : String), "a"]) ∧
    (String.join [("a" : String), "a"]).length = 2 :=
  c3_legacy_length (fun i => [i, i]) id (fun _ => some [0])
    (LegacyRecognizer.init fun _ => "a") [] [0] rfl (fun _ => rfl)

theorem toNat_ofNat_of_lt {n : Nat} (h : n < 55296) : (Char.ofNat n).toNat = n := by
  have hv : n.isValidChar := Or.inl h
  rw [Char.ofNat, dif_pos hv]
  rfl

theorem mem_tensorToCaptcha_bound (ts : List (List Int)) (c : Char)
    (hc : c ∈ (NNRecognizer.tensorToCaptcha ts).data) :
    97 ≤ c.toNat ∧ c.toNat ≤ 122 := by
  rw [tensorToCaptcha_eq] at hc
  rcases List.mem_filterMap.1 hc with ⟨t, _, hslot⟩
  rw [slotChar] at hslot
  by_cases h : argmax t < 26
  · rw [if_pos h] at hslot
    cases Option.some.inj hslot
    rw [toNat_ofNat_of_lt (by omega)]
    omega
  · rw [if_neg h] at hslot
    cases hslot

/-- Claim C6: every character either recognizer returns is a lowercase Latin
letter (codepoint between 97 `'a'` and 122 `'z'`).  For the whole-image
pipeline this is unconditional; for the segmentation pipeline it holds
whenever the SVM session's label strings consist of lowercase letters, which
is the spec's model of the label space (the session itself is an external
artifact the code cannot constrain). -/
theorem c6_output_lowercase :
    (∀ (decode : Bytes → Option ImageL) (r : NNRecognizer) (img : Bytes)
        (s : String), (NNRecognizer.recognize decode r img).1 = Except.ok s →
        ∀ c ∈ s.data, 97 ≤ c.toNat ∧ c.toNat ≤ 122) ∧
    (∀ (hsplit : List Nat → List (List Nat)) (vnorm : List Nat → List Nat)
        (decode : Bytes → Option ImageL) (r : LegacyRecognizer) (img : Bytes),
        (∀ v : List Nat, ∀ c ∈ (r.clr v).data, 97 ≤ c.toNat ∧ c.toNat ≤ 122) →
        ∀ s : String, (LegacyRecognizer.recognize hsplit vnorm decode r img).1 = Except.ok s →
        ∀ c ∈ s.data, 97 ≤ c.toNat ∧ c.toNat ≤ 122) := by
  constructor
  · intro decode r img s hok c hc
    rw [NNRecognizer.recognize] at hok
    cases hdec : decode img with
    | none => rw [hdec] at hok; cases hok
    | some gray =>
      rw [hdec] at hok
      cases Except.ok.inj hok
      exact mem_tensorToCaptcha_bound _ c hc
  · intro hsplit vnorm decode r img hclr s hok c hc
    rw [LegacyRecognizer.recognize] at hok
    cases hdec : decode img with
    | none => rw [hdec] at hok; cases hok
    | some gray =>
      rw [hdec] at hok
      cases Except.ok.inj hok
      rw [join_data] at hc
      rcases List.mem_flatten.1 hc with ⟨cs, hcs, hmem⟩
      rcases List.mem_map.1 hcs with ⟨lab, hlab, rfl⟩
      rcases List.mem_map.1 hlab with ⟨seg, _, rfl⟩
      exact hclr seg c hmem

/-- Witness for C6: concrete runs of both recognizers, a session whose single
tensor decodes to `'a'` and a classifier answering `"a"`. -/
theorem c6_output_lowercase_witness :
    (97 ≤ ('a').toNat ∧ ('a').toNat ≤ 122) ∧
    (97 ≤ ('b').toNat ∧ ('b').toNat ≤ 122) := by
  constructor
  · exact c6_output_lowercase.1 (fun _ => some []) (NNRecognizer.init fun _ => [[0]]) []
      "a" rfl 'a' (by decide)
  · exact c6_output_lowercase.2 (fun i => [i]) id (fun _ => some [])
      (LegacyRecognizer.init fun _ => "b") [] (fun v c hc => by
        rcases List.mem_singleton.1 hc with rfl
        decide) "b" rfl 'b' (by decide)

/-- Claim C7: when the image bytes fail to decode, both recognizers propagate
the decode failure unchanged to the caller; the result is the error pair for
every possible model session (quantified inside `rl` and `rn`), so no model
invocation can influence it, and there is no retry. -/
theorem c7_decode_failure (hsplit : List Nat → List (List Nat))
    (vnorm : List Nat → List Nat) (decode : Bytes → Option ImageL)
    (rl : LegacyRecognizer) (rn : NNRecognizer) (img : Bytes)
    (h : decode img = none) :
    LegacyRecognizer.recognize hsplit vnorm decode rl img =
      (Except.error DecodeError.decodeFailure, rl) ∧
    NNRecognizer.recognize decode rn img =
      (Except.error DecodeError.decodeFailure, rn) := by
  rw [LegacyRecognizer.recognize, NNRecognizer.recognize, h]
  exact ⟨rfl, rfl⟩

/-- Witness for C7 on a concrete undecodable byte string. -/
theorem c7_decode_failure_witness :
    LegacyRecognizer.recognize (fun i => [i]) id (fun _ => none)
        (LegacyRecognizer.init fun _ => "a") [0] =
      (Except.error DecodeError.decodeFailure, LegacyRecognizer.init fun _ => "a") ∧
    NNRecognizer.recognize (fun _ => none) (NNRecognizer.init fun _ => []) [0] =
      (Except.error DecodeError.decodeFailure, NNRecognizer.init fun _ => []) :=
  c7_decode_failure (fun i => [i]) id (fun _ => none)
    (LegacyRecognizer.init fun _ => "a") (NNRecognizer.init fun _ => []) [0] rfl

/-- Claim C8: both recognizers are deterministic — a second `recognize` call
on the recognizer state left by a first call, with the same input bytes and
the same collaborators, returns the same string (the embedding is a pure
function of the recognizer state and the input; the code has no randomness). -/
theorem c8_deterministic (hsplit : List Nat → List (List Nat))
    (vnorm : List Nat → List Nat) (decode : Bytes → Option ImageL)
    (rl : LegacyRecognizer) (rn : NNRecognizer) (img : Bytes) :
    (LegacyRecognizer.recognize hsplit vnorm decode rl img).1 =
      (LegacyRecognizer.recognize hsplit vnorm decode
        (LegacyRecognizer.recognize hsplit vnorm decode rl img).2 img).1 ∧
    (NNRecognizer.recognize decode rn img).1 =
      (NNRecognizer.recognize decode
        (NNRecognizer.recognize decode rn img).2 img).1 := by
  rw [legacyRecognize_snd, nnRecognize_snd]
  exact ⟨rfl, rfl⟩

/-- Claim C9: a `recognize` call leaves the recognizer state (model session
and binarization table) untouched: the state returned by the call is exactly
the state it was given, for both recognizers. -/
theorem c9_state_unchanged (hsplit : List Nat → List (List Nat))
    (vnorm : List Nat → List Nat) (decode : Bytes → Option ImageL)
    (rl : LegacyRecognizer) (rn : NNRecognizer) (img : Bytes) :
    (LegacyRecognizer.recognize hsplit vnorm decode rl img).2 = rl ∧
    (NNRecognizer.recognize decode rn img).2 = rn :=
  ⟨legacyRecognize_snd hsplit vnorm decode rl img, nnRecognize_snd decode rn img⟩

end Ocr
